import Mathlib

/-!
# Verification of the quaternion DMP specification against `quaternion_dmp.py`

Shallow embedding of the single source file `quaternion_dmp.py` (class
`QuaternionDMP`).  Machine floats are modelled as exact real numbers; numpy
arrays over quaternions / 3-vectors are modelled as Lean lists of the
structures `Quat` and `V3` below, indexed exactly as the numpy code indexes
them (the structure field `c0` is array entry `q[0]`, `c1 c2 c3` are `q[1:]`).
The object state of the Python class is the structure `QuaternionDMP`;
attributes that only exist after `imitate` has run are `Option`-valued, and a
read of a missing attribute surfaces as the Python `AttributeError` in the
error type `PyErr`.  External collaborators (scipy's `Slerp` resampler and
numpy's `pinv`) are not part of the repository; they are passed to `imitate`
as explicit function arguments, and the one fact about them the specification
relies on (`Slerp` rejecting fewer than two rotations) is modelled from the
spec where marked.
-/

/-- A 3-component tangent vector, numpy array `[x, y, z]` (entries 1,2,3 of a
quaternion array in the source's slicing `q[1:]`). -/
@[ext]
structure V3 where
  x : ℝ
  y : ℝ
  z : ℝ

/-- A quaternion as the source stores it: a flat numpy array of 4 reals.
Field `c0` is `q[0]`, fields `c1 c2 c3` are the slice `q[1:]`.  The source's
own algebra treats `c0` as the scalar part; the scipy resampler that fills
`self.q` emits scalar-last `(x, y, z, w)` arrays. -/
@[ext]
structure Quat where
  c0 : ℝ
  c1 : ℝ
  c2 : ℝ
  c3 : ℝ

/-- The zero 3-vector (`np.zeros(3)`). -/
noncomputable def v3zero : V3 := ⟨0, 0, 0⟩

/-- Default quaternion used to totalize list indexing (never hit on the
index ranges the theorems quantify over). -/
noncomputable def quatZero : Quat := ⟨0, 0, 0, 0⟩

noncomputable instance : Zero V3 := ⟨v3zero⟩

noncomputable instance : Add V3 := ⟨fun u v => ⟨u.x + v.x, u.y + v.y, u.z + v.z⟩⟩

noncomputable instance : Sub V3 := ⟨fun u v => ⟨u.x - v.x, u.y - v.y, u.z - v.z⟩⟩

noncomputable instance : Neg V3 := ⟨fun v => ⟨-v.x, -v.y, -v.z⟩⟩

noncomputable instance : SMul ℝ V3 := ⟨fun r v => ⟨r * v.x, r * v.y, r * v.z⟩⟩

/-- Elementwise division of a numpy 3-vector by a scalar, `v / r`. -/
noncomputable def V3.divR (v : V3) (r : ℝ) : V3 := ⟨v.x / r, v.y / r, v.z / r⟩

/-- `np.dot(u, v)` for 3-vectors. -/
noncomputable def dotV (u v : V3) : ℝ := u.x * v.x + u.y * v.y + u.z * v.z

/-- `np.cross(u, v)` for 3-vectors. -/
noncomputable def crossV (u v : V3) : V3 :=
  ⟨u.y * v.z - u.z * v.y, u.z * v.x - u.x * v.z, u.x * v.y - u.y * v.x⟩

/-- `np.linalg.norm` of a 3-vector. -/
noncomputable def normV (v : V3) : ℝ := Real.sqrt (v.x ^ 2 + v.y ^ 2 + v.z ^ 2)

/-- `np.linalg.norm` of a quaternion array (Euclidean norm of all 4 entries). -/
noncomputable def normQ (q : Quat) : ℝ :=
  Real.sqrt (q.c0 ^ 2 + q.c1 ^ 2 + q.c2 ^ 2 + q.c3 ^ 2)

/-- Source `quaternion_conjugate` (line 61-62): elementwise product with the
array `[1.0, -1.0, -1.0, -1.0]` — entry 0 is kept, entries 1..3 are negated. -/
noncomputable def quaternion_conjugate (q : Quat) : Quat :=
  ⟨q.c0 * 1, q.c1 * (-1), q.c2 * (-1), q.c3 * (-1)⟩

/-- Source `quaternion_product` (lines 64-69): `q12[0] = q1[0]*q2[0] -
dot(q1[1:], q2[1:])`, `q12[1:] = q1[0]*q2[1:] + q2[0]*q1[1:] +
cross(q1[1:], q2[1:])`. -/
noncomputable def quaternion_product (q1 q2 : Quat) : Quat :=
  ⟨q1.c0 * q2.c0 - (q1.c1 * q2.c1 + q1.c2 * q2.c2 + q1.c3 * q2.c3),
   q1.c0 * q2.c1 + q2.c0 * q1.c1 + (q1.c2 * q2.c3 - q1.c3 * q2.c2),
   q1.c0 * q2.c2 + q2.c0 * q1.c2 + (q1.c3 * q2.c1 - q1.c1 * q2.c3),
   q1.c0 * q2.c3 + q2.c0 * q1.c3 + (q1.c1 * q2.c2 - q1.c2 * q2.c1)⟩

/-- Source `quaternion_error` (lines 71-72). -/
noncomputable def quaternion_error (q1 q2 : Quat) : Quat :=
  quaternion_product q1 (quaternion_conjugate q2)

/-- Source `exponential_map` (lines 74-86): zero-angle guard returns
`[1,0,0,0]`, otherwise `[cos(θ/2), sin(θ/2)·r/θ]` with `θ = ‖r‖`. -/
noncomputable def exponential_map (r : V3) : Quat :=
  if normV r = 0 then ⟨1, 0, 0, 0⟩
  else
    ⟨Real.cos (normV r / 2),
     Real.sin (normV r / 2) * (r.x / normV r),
     Real.sin (normV r / 2) * (r.y / normV r),
     Real.sin (normV r / 2) * (r.z / normV r)⟩

/-- `np.finfo(float).eps`, the double-precision machine epsilon `2⁻⁵²`. -/
noncomputable def floatEps : ℝ := 1 / 2 ^ 52

/-- `np.arctan2 y x`: four-quadrant arctangent. -/
noncomputable def arctan2 (y x : ℝ) : ℝ :=
  if 0 < x then Real.arctan (y / x)
  else if x < 0 then
    (if 0 ≤ y then Real.arctan (y / x) + Real.pi else Real.arctan (y / x) - Real.pi)
  else
    (if 0 < y then Real.pi / 2 else if y < 0 then -(Real.pi / 2) else 0)

/-- Source `logarithmic_map` (lines 88-96): if `‖q[1:]‖ < eps` return zeros,
otherwise `θ·n` with `θ = 2·arctan2(‖q[1:]‖, q[0])` and `n = q[1:]/‖q[1:]‖`. -/
noncomputable def logarithmic_map (q : Quat) : V3 :=
  if Real.sqrt (q.c1 ^ 2 + q.c2 ^ 2 + q.c3 ^ 2) < floatEps then ⟨0, 0, 0⟩
  else
    (2 * arctan2 (Real.sqrt (q.c1 ^ 2 + q.c2 ^ 2 + q.c3 ^ 2)) q.c0) •
      (⟨q.c1 / Real.sqrt (q.c1 ^ 2 + q.c2 ^ 2 + q.c3 ^ 2),
        q.c2 / Real.sqrt (q.c1 ^ 2 + q.c2 ^ 2 + q.c3 ^ 2),
        q.c3 / Real.sqrt (q.c1 ^ 2 + q.c2 ^ 2 + q.c3 ^ 2)⟩ : V3)

/-- The spec's conjugation under the resampler's scalar-last `(x, y, z, w)`
component order: negate the three rotation components `x, y, z` (array entries
0..2) and keep the scalar component `w` (array entry 3). -/
noncomputable def conjugate_spec (q : Quat) : Quat := ⟨-q.c0, -q.c1, -q.c2, q.c3⟩

/-- `np.linspace a b n`: `n` evenly spaced points from `a` to `b` inclusive
(`[a]` for `n = 1`, `[]` for `n = 0`). -/
noncomputable def linspace (a b : ℝ) (n : ℕ) : List ℝ :=
  if n = 1 then [a]
  else (List.range n).map (fun i : ℕ => a + (b - a) * (i : ℝ) / ((n : ℝ) - 1))

/-- `np.gradient y` with unit spacing and default edge order: one-sided
differences at the two edges, central differences in the interior. -/
noncomputable def npGradient (y : List ℝ) : List ℝ :=
  (List.range y.length).map (fun n =>
    if n = 0 then y.getD 1 0 - y.getD 0 0
    else if n = y.length - 1 then y.getD n 0 - y.getD (n - 1) 0
    else (y.getD (n + 1) 0 - y.getD (n - 1) 0) / 2)

/-- Source `quaternion_diff` (lines 98-106): one-sided log-map difference at
the first and last sample, central difference (over `2·dt`) in between. -/
noncomputable def quaternion_diff (dt : ℝ) (q : List Quat) : List V3 :=
  (List.range q.length).map (fun n =>
    if n = 0 then
      (logarithmic_map (quaternion_error (q.getD 1 quatZero) (q.getD 0 quatZero))).divR dt
    else if n = q.length - 1 then
      (logarithmic_map (quaternion_error (q.getD n quatZero) (q.getD (n - 1) quatZero))).divR dt
    else
      (logarithmic_map (quaternion_error (q.getD (n + 1) quatZero) (q.getD (n - 1) quatZero))).divR
        (2 * dt))

/-- One row of the source's `RBF` matrix (line 108-109): the Gaussian basis
values `exp(-h_i·(p - c_i)²)` at one phase value `p`. -/
noncomputable def RBF_row (h c : List ℝ) (p : ℝ) : List ℝ :=
  List.zipWith (fun hi ci => Real.exp (-(hi * (p - ci) ^ 2))) h c

/-- Source `RBF` (lines 108-109): `np.exp(-h*(phase[:,None]-c)**2)`, one row
per entry of the phase schedule `selfPhase` stored by `imitate`. -/
noncomputable def RBF_mat (h c selfPhase : List ℝ) : List (List ℝ) :=
  selfPhase.map (RBF_row h c)

/-- `np.dot` of two equal-length real lists. -/
noncomputable def dotL (u v : List ℝ) : ℝ := (List.zipWith (fun a b => a * b) u v).sum

/-- Source `forcing_function_approx` (lines 111-113):
`np.dot(BF, weights) * phase / np.sum(BF, axis=1)`.  Note that the basis
matrix `BF = self.RBF()` is evaluated at the *stored* phase schedule
`selfPhase` (= `self.phase`, set by `imitate`), while the elementwise
multiplier is the *argument* `phase`. -/
noncomputable def forcing_function_approx (h c selfPhase w phase : List ℝ) : List ℝ :=
  List.zipWith (fun row p => dotL row w * p / row.sum) (RBF_mat h c selfPhase) phase

/-- The forcing approximation as the spec states it: the basis matrix and the
multiplier are both evaluated at the given (possibly rescaled) phase
schedule. -/
noncomputable def forcing_function_spec (h c w phase : List ℝ) : List ℝ :=
  List.zipWith (fun row p => dotL row w * p / row.sum) (RBF_mat h c phase) phase

/-- Source `fit_dmp` design matrix (line 118):
`X = BF * phase[:,None] / np.sum(BF, axis=1)[:,None]`. -/
noncomputable def designMatrix (h c phase : List ℝ) : List (List ℝ) :=
  List.zipWith (fun row p => row.map (fun b => b * p / row.sum)) (RBF_mat h c phase) phase

/-- Errors the Python code can raise at the two API boundaries, plus the two
error kinds named by the spec, which have no counterpart anywhere in the
source (modelled from the spec so that the spec's claims about them can be
stated): `untrainedModelError` and `insufficientDemonstration`. -/
inductive PyErr where
  | attributeError : String → PyErr
  | valueError : String → PyErr
  | untrainedModelError : PyErr
  | insufficientDemonstration : PyErr
deriving DecidableEq

/-- The object state of the Python class `QuaternionDMP`.  Fields `T` … `h`
are set by `__init__`; every field that only comes into existence when
`imitate` runs is `Option`-valued (`none` = attribute absent).  The numpy
weight matrix (`N_bf × 3`) is stored as its three columns
(`self.weights[:,0], self.weights[:,1], self.weights[:,2]`), which is how the
source consumes it. -/
structure QuaternionDMP where
  T : ℝ
  dt : ℝ
  N : ℕ
  alphax : ℝ
  alphaz : ℝ
  betaz : ℝ
  N_bf : ℕ
  tau : ℝ
  c : List ℝ
  h : List ℝ
  q : Option (List Quat)
  dq_log : Option (List V3)
  ddq_log : Option (List V3)
  q0 : Option Quat
  dq_log0 : Option V3
  ddq_log0 : Option V3
  qT : Option Quat
  phase : Option (List ℝ)
  weights : Option (List ℝ × List ℝ × List ℝ)

/-- Source `__init__` (lines 8-27): hyperparameters, then basis centers
`c[i] = exp(-alphax · linspace(0,T,N_bf)[i])` and widths
`h = N_bf^1.5 / c / alphax`.  No trained attribute exists yet. -/
noncomputable def QuaternionDMP.init (N_bf : ℕ) (dt : ℝ) : QuaternionDMP :=
  { T := 1
    dt := dt
    N := (⌊(1 : ℝ) / dt⌋).toNat
    alphax := 1
    alphaz := 12
    betaz := 3
    N_bf := N_bf
    tau := 1
    c := (linspace 0 1 N_bf).map (fun t => Real.exp (-(1 * t)))
    h := ((linspace 0 1 N_bf).map (fun t => Real.exp (-(1 * t)))).map
      (fun ci => 1 * (N_bf : ℝ) ^ (1.5 : ℝ) / ci / 1)
    q := none
    dq_log := none
    ddq_log := none
    q0 := none
    dq_log0 := none
    ddq_log0 := none
    qT := none
    phase := none
    weights := none }

/-- Phase schedule stored by `imitate` (line 48):
`np.exp(-alphax * np.linspace(0, T, N))`. -/
noncomputable def QuaternionDMP.trainingPhase (s : QuaternionDMP) : List ℝ :=
  (linspace 0 s.T s.N).map (fun t => Real.exp (-(s.alphax * t)))

/-- Phase schedule recomputed by `rollout` (line 134):
`np.exp(-alphax * tau * np.linspace(0, T, N))`. -/
noncomputable def QuaternionDMP.rolloutPhase (s : QuaternionDMP) (tau : ℝ) : List ℝ :=
  (linspace 0 s.T s.N).map (fun t => Real.exp (-(s.alphax * tau * t)))

/-- One column of the forcing term computed by `rollout` (lines 136-138):
`forcing_function_approx(self.weights[:,d], phase)` with `phase` the rescaled
schedule, while the basis matrix inside uses the stored `selfPhase`. -/
noncomputable def QuaternionDMP.rolloutForcingCol (s : QuaternionDMP) (selfPhase wcol : List ℝ)
    (tau : ℝ) : List ℝ :=
  forcing_function_approx s.h s.c selfPhase wcol (s.rolloutPhase tau)

/-- The forcing term of `rollout` assembled as one 3-vector per step from the
three columns of lines 136-138. -/
noncomputable def QuaternionDMP.rolloutForcingVec (s : QuaternionDMP) (selfPhase : List ℝ)
    (w : List ℝ × List ℝ × List ℝ) (tau : ℝ) (n : ℕ) : V3 :=
  ⟨(s.rolloutForcingCol selfPhase w.1 tau).getD n 0,
   (s.rolloutForcingCol selfPhase w.2.1 tau).getD n 0,
   (s.rolloutForcingCol selfPhase w.2.2 tau).getD n 0⟩

/-- The simultaneous recursion of the integration loop of `rollout`
(lines 140-146), producing `(q[n], dq[n], ddq[n])`.  Every right-hand side
reads only index-`n-1` state, exactly as in the source: `ddq[n]` is the
attractor term at the prior state plus the forcing at `n`, while `dq[n]` and
`q[n]` advance using `ddq[n-1]` and `dq[n-1]`. -/
noncomputable def rolloutSeq (alphaz betaz tau dt : ℝ) (qT : Quat) (f : ℕ → V3)
    (q0 : Quat) (dq0 ddq0 : V3) : ℕ → Quat × V3 × V3
  | 0 => (q0, dq0, ddq0)
  | n + 1 =>
    let p := rolloutSeq alphaz betaz tau dt qT f q0 dq0 ddq0 n
    (quaternion_product (exponential_map ((tau * dt) • p.2.1)) p.1,
     p.2.1 + (tau * dt) • p.2.2,
     alphaz • (betaz • logarithmic_map (quaternion_error qT p.1) - p.2.1) + f (n + 1))

/-- Source `rollout` (lines 125-148).  Reads the trained attributes in the
order the Python method body first touches them (`self.q0` at line 130 first),
surfacing a Python `AttributeError` for the first missing one; on a trained
state it returns the unchanged object state (the method assigns no attribute)
together with the three length-`N` output sequences. -/
noncomputable def QuaternionDMP.rollout (s : QuaternionDMP) (tau : ℝ) :
    Except PyErr (QuaternionDMP × List Quat × List V3 × List V3) :=
  match s.q0 with
  | none => .error (.attributeError "q0")
  | some q0 =>
  match s.dq_log0 with
  | none => .error (.attributeError "dq_log0")
  | some dq0 =>
  match s.ddq_log0 with
  | none => .error (.attributeError "ddq_log0")
  | some ddq0 =>
  match s.weights with
  | none => .error (.attributeError "weights")
  | some w =>
  match s.phase with
  | none => .error (.attributeError "phase")
  | some ph =>
  match s.qT with
  | none => .error (.attributeError "qT")
  | some qT =>
    .ok (s,
      (List.range s.N).map (fun n =>
        (rolloutSeq s.alphaz s.betaz tau s.dt qT (s.rolloutForcingVec ph w tau)
          q0 dq0 ddq0 n).1),
      (List.range s.N).map (fun n =>
        (rolloutSeq s.alphaz s.betaz tau s.dt qT (s.rolloutForcingVec ph w tau)
          q0 dq0 ddq0 n).2.1),
      (List.range s.N).map (fun n =>
        (rolloutSeq s.alphaz s.betaz tau s.dt qT (s.rolloutForcingVec ph w tau)
          q0 dq0 ddq0 n).2.2))

/-- Source `imitate` (lines 29-59).  The scipy `Slerp` resampler and numpy's
`pinv` are external collaborators and are passed as explicit functions
(`slerpEval t demo query` models `Slerp(t, R.from_quat(demo))(query).as_quat()`;
`pinvMul X b` models `np.dot(np.linalg.pinv(X), b)`).  Modelled from the
spec: the external interpolation collaborator rejects a demonstration of
fewer than 2 samples with a `ValueError` (scipy's `Slerp` constructor does so
at line 33); nothing in the repository raises a dedicated error for this.
On success all trained attributes are populated and the resampled trajectory
is returned (line 59). -/
noncomputable def QuaternionDMP.imitate (s : QuaternionDMP)
    (slerpEval : List ℝ → List Quat → List ℝ → List Quat)
    (pinvMul : List (List ℝ) → List ℝ → List ℝ)
    (demo : List Quat) : Except PyErr (QuaternionDMP × List Quat) :=
  if demo.length < 2 then
    .error (.valueError "rotations must contain at least 2 rotations")
  else
    let t := linspace 0 s.T demo.length
    let q := slerpEval t demo (linspace 0 s.T s.N)
    let dq_log := quaternion_diff s.dt q
    let ddq_log := (List.range dq_log.length).map (fun n =>
      ⟨(npGradient (dq_log.map V3.x)).getD n 0 / s.dt,
       (npGradient (dq_log.map V3.y)).getD n 0 / s.dt,
       (npGradient (dq_log.map V3.z)).getD n 0 / s.dt⟩)
    let q0 := q.getD 0 quatZero
    let dq0 := dq_log.getD 0 v3zero
    let ddq0 := ddq_log.getD 0 v3zero
    let qT := q.getD (q.length - 1) quatZero
    let phase := s.trainingPhase
    let ft : List V3 := (List.range s.N).map (fun n =>
      s.tau • ddq_log.getD n v3zero -
        s.alphaz • (s.betaz • logarithmic_map (quaternion_error qT (q.getD n quatZero)) -
          dq_log.getD n v3zero))
    let X := designMatrix s.h s.c phase
    let w := (pinvMul X (ft.map V3.x), pinvMul X (ft.map V3.y), pinvMul X (ft.map V3.z))
    .ok ({ s with
            q := some q
            dq_log := some dq_log
            ddq_log := some ddq_log
            q0 := some q0
            dq_log0 := some dq0
            ddq_log0 := some ddq0
            qT := some qT
            phase := some phase
            weights := some w }, q)

/-- Extract the payload of a successful `Except`, with a fallback value. -/
def okOr {α : Type} (e : Except PyErr α) (d : α) : α :=
  match e with
  | .ok a => a
  | .error _ => d

/-- Stand-in interpolator argument for runs of `imitate` whose resampled
output is irrelevant to the statement. -/
def dummySlerp : List ℝ → List Quat → List ℝ → List Quat := fun _ _ _ => []

/-- Stand-in least-squares solver argument for runs of `imitate` whose fitted
weights are irrelevant to the statement. -/
def dummyPinv : List (List ℝ) → List ℝ → List ℝ := fun _ _ => []

/-- A concrete three-sample trajectory for instantiating the differentiation
formulas. -/
noncomputable def qlist3 : List Quat := [⟨0, 0, 0, 1⟩, ⟨0, 0, 0, 1⟩, ⟨0, 0, 0, 1⟩]

/-- A concrete fully-trained object state with `N = 2`, used to instantiate
the trained-model hypotheses of the `rollout` theorems. -/
noncomputable def trainedState : QuaternionDMP :=
  { T := 1, dt := 1 / 2, N := 2, alphax := 1, alphaz := 12, betaz := 3, N_bf := 2, tau := 1,
    c := [1, Real.exp (-1)],
    h := [(2 : ℝ) ^ (1.5 : ℝ), (2 : ℝ) ^ (1.5 : ℝ) * Real.exp 1],
    q := none, dq_log := none, ddq_log := none,
    q0 := some ⟨1, 0, 0, 0⟩, dq_log0 := some ⟨0, 0, 0⟩, ddq_log0 := some ⟨0, 0, 0⟩,
    qT := some ⟨1, 0, 0, 0⟩, phase := some [1, Real.exp (-1)],
    weights := some ([0, 0], [0, 0], [0, 0]) }

theorem v3_smul_def (r : ℝ) (v : V3) : r • v = ⟨r * v.x, r * v.y, r * v.z⟩ := rfl

theorem v3_add_def (u v : V3) : u + v = ⟨u.x + v.x, u.y + v.y, u.z + v.z⟩ := rfl

theorem v3_sub_def (u v : V3) : u - v = ⟨u.x - v.x, u.y - v.y, u.z - v.z⟩ := rfl

theorem getD_range_map {α : Type} (g : ℕ → α) (N k : ℕ) (d : α) (hk : k < N) :
    (((List.range N).map g).getD k d) = g k := by
  rw [List.getD_eq_getElem?_getD, List.getElem?_map, List.getElem?_range hk]
  rfl

/-- C1: the code's `quaternion_conjugate` keeps array entry 0 and negates
entries 1..3; on the scalar-last `(x,y,z,w)` quaternions that `imitate`'s
resampler produces (where the identity rotation is `(0,0,0,1)`), this keeps
the rotation component `x` and negates the scalar component `w` — the exact
opposite, on those components, of the spec's convention-consistent
conjugation `conjugate_spec`.  The code's own `exponential_map` meanwhile
places the scalar first (`(1,0,0,0)` for the identity), so the two component
conventions coexist inconsistently. -/
theorem conjugate_convention_mismatch :
    quaternion_conjugate ⟨0, 0, 0, 1⟩ = ⟨0, 0, 0, -1⟩ ∧
    conjugate_spec ⟨0, 0, 0, 1⟩ = ⟨0, 0, 0, 1⟩ ∧
    quaternion_conjugate ⟨0, 0, 0, 1⟩ ≠ conjugate_spec ⟨0, 0, 0, 1⟩ ∧
    exponential_map ⟨0, 0, 0⟩ = ⟨1, 0, 0, 0⟩ := by
  have h1 : quaternion_conjugate ⟨0, 0, 0, 1⟩ = ⟨0, 0, 0, -1⟩ := by
    simp [quaternion_conjugate]
  have h2 : conjugate_spec ⟨0, 0, 0, 1⟩ = ⟨0, 0, 0, 1⟩ := by
    simp [conjugate_spec]
  refine ⟨h1, h2, ?_, ?_⟩
  · intro hcontra
    rw [h1, h2] at hcontra
    have hc3 := congrArg Quat.c3 hcontra
    norm_num at hc3
  · have hz : normV ⟨0, 0, 0⟩ = 0 := by
      simp [normV]
    rw [exponential_map, if_pos hz]

/-- C7: for every quaternion of Euclidean norm 1, the code's
`error(q, q) = product(q, conjugate(q))` is the quaternion `(1, 0, 0, 0)`,
i.e. scalar part 1 and zero vector part in the code's own (entry-0 scalar)
convention. -/
theorem error_self_eq_identity (q : Quat) (hq : normQ q = 1) :
    quaternion_error q q = ⟨1, 0, 0, 0⟩ := by
  have h1 : q.c0 ^ 2 + q.c1 ^ 2 + q.c2 ^ 2 + q.c3 ^ 2 = 1 := by
    have h0 : Real.sqrt (q.c0 ^ 2 + q.c1 ^ 2 + q.c2 ^ 2 + q.c3 ^ 2) = 1 := hq
    nlinarith [Real.sq_sqrt (by positivity : (0:ℝ) ≤ q.c0 ^ 2 + q.c1 ^ 2 + q.c2 ^ 2 + q.c3 ^ 2)]
  unfold quaternion_error quaternion_product quaternion_conjugate
  refine Quat.ext ?_ ?_ ?_ ?_ <;> dsimp
  · linear_combination h1
  · ring
  · ring
  · ring

theorem error_self_eq_identity_witness :
    normQ ⟨1, 0, 0, 0⟩ = 1 ∧ quaternion_error ⟨1, 0, 0, 0⟩ ⟨1, 0, 0, 0⟩ = ⟨1, 0, 0, 0⟩ := by
  have h : normQ ⟨1, 0, 0, 0⟩ = 1 := by
    simp [normQ]
  exact ⟨h, error_self_eq_identity _ h⟩

/-- C10: `exponential_map` always returns a quaternion of Euclidean norm
exactly 1 (in exact real arithmetic): the zero-angle guard returns
`(1,0,0,0)`, and the general branch has squared norm `cos² + sin² = 1`. -/
theorem exponential_map_unit_norm (r : V3) : normQ (exponential_map r) = 1 := by
  unfold exponential_map
  split_ifs with h
  · unfold normQ
    norm_num
  · have hnn : (0:ℝ) ≤ r.x ^ 2 + r.y ^ 2 + r.z ^ 2 := by positivity
    have hsq : (normV r) ^ 2 = r.x ^ 2 + r.y ^ 2 + r.z ^ 2 := Real.sq_sqrt hnn
    have hpyth : (Real.sin (normV r / 2)) ^ 2 + (Real.cos (normV r / 2)) ^ 2 = 1 :=
      Real.sin_sq_add_cos_sq _
    unfold normQ
    have key : (Real.cos (normV r / 2)) ^ 2 +
        (Real.sin (normV r / 2) * (r.x / normV r)) ^ 2 +
        (Real.sin (normV r / 2) * (r.y / normV r)) ^ 2 +
        (Real.sin (normV r / 2) * (r.z / normV r)) ^ 2 = 1 := by
      field_simp
      nlinarith [hsq, hpyth]
    rw [key, Real.sqrt_one]

/-- C4 (amended): calling `rollout` on a freshly constructed object — before
any successful `imitate` — fails, but with Python's generic `AttributeError`
on the first missing trained attribute `self.q0` (line 130), not with any
dedicated `UntrainedModelError`: no such error kind exists in the source. -/
theorem rollout_untrained_attribute_error (N_bf : ℕ) (dt tau : ℝ) :
    (QuaternionDMP.init N_bf dt).rollout tau = .error (.attributeError "q0") := rfl

/-- C4 (counterexample to the claim as stated): on a fresh default-like model
the failure of `rollout` is not the spec's `UntrainedModelError`. -/
theorem rollout_untrained_not_untrainedModelError :
    (QuaternionDMP.init 20 (1 / 100)).rollout 1 ≠ .error PyErr.untrainedModelError := by
  intro hcontra
  rw [show (QuaternionDMP.init 20 (1 / 100)).rollout 1 =
      .error (.attributeError "q0") from rfl] at hcontra
  simp at hcontra

/-- C5 (amended): `imitate` on a demonstration of fewer than 2 samples fails,
but with the external interpolation collaborator's generic `ValueError`
(scipy's `Slerp` constructor, reached at line 33, rejects fewer than 2
rotations — modelled from the spec's description of that collaborator), not
with any dedicated `InsufficientDemonstration` error: no such error kind
exists in the source. -/
theorem imitate_short_demo_value_error (s : QuaternionDMP)
    (slerpEval : List ℝ → List Quat → List ℝ → List Quat)
    (pinvMul : List (List ℝ) → List ℝ → List ℝ)
    (demo : List Quat) (hd : demo.length < 2) :
    s.imitate slerpEval pinvMul demo =
      .error (.valueError "rotations must contain at least 2 rotations") := by
  unfold QuaternionDMP.imitate
  rw [if_pos hd]

theorem imitate_short_demo_value_error_witness :
    ([(⟨0, 0, 0, 1⟩ : Quat)].length < 2) ∧
    (QuaternionDMP.init 20 (1 / 100)).imitate dummySlerp dummyPinv [⟨0, 0, 0, 1⟩] =
      .error (.valueError "rotations must contain at least 2 rotations") :=
  ⟨by decide, imitate_short_demo_value_error _ _ _ _ (by decide)⟩

/-- C5 (counterexample to the claim as stated): the failure on a 1-sample
demonstration is not the spec's `InsufficientDemonstration`. -/
theorem imitate_short_demo_not_insufficientDemonstration :
    (QuaternionDMP.init 20 (1 / 100)).imitate dummySlerp dummyPinv [⟨0, 0, 0, 1⟩] ≠
      .error PyErr.insufficientDemonstration := by
  intro hcontra
  rw [show (QuaternionDMP.init 20 (1 / 100)).imitate dummySlerp dummyPinv [⟨0, 0, 0, 1⟩] =
      .error (.valueError "rotations must contain at least 2 rotations") from rfl] at hcontra
  simp at hcontra

/-- C9: (i) the basis centers and widths produced by `__init__` do not depend
on `dt` (given `N_bf`, they are functions of the constants `T = 1` and
`alphax = 1` alone); (ii) a successful `imitate` leaves `c` and `h`
unchanged; (iii) `rollout` returns the object state unchanged — it assigns no
attribute, so the trained artifacts (weights, q0, qT, boundary derivatives,
centers, widths) are all preserved by every rollout call. -/
theorem trained_artifacts_frame :
    (∀ (n1 : ℕ) (d1 d2 : ℝ),
      (QuaternionDMP.init n1 d1).c = (QuaternionDMP.init n1 d2).c ∧
      (QuaternionDMP.init n1 d1).h = (QuaternionDMP.init n1 d2).h) ∧
    (∀ (s : QuaternionDMP) (f : List ℝ → List Quat → List ℝ → List Quat)
      (g : List (List ℝ) → List ℝ → List ℝ) (demo : List Quat)
      (r : QuaternionDMP × List Quat),
      s.imitate f g demo = .ok r → r.1.c = s.c ∧ r.1.h = s.h) ∧
    (∀ (s : QuaternionDMP) (tau : ℝ)
      (r : QuaternionDMP × List Quat × List V3 × List V3),
      s.rollout tau = .ok r → r.1 = s) := by
  refine ⟨fun n1 d1 d2 => ⟨rfl, rfl⟩, ?_, ?_⟩
  · intro s f g demo r hr
    unfold QuaternionDMP.imitate at hr
    split at hr
    · simp at hr
    · cases hr
      exact ⟨rfl, rfl⟩
  · intro s tau r hr
    unfold QuaternionDMP.rollout at hr
    repeat' split at hr
    any_goals simp at hr
    cases hr
    rfl

/-- C6: the tangent-space velocity `quaternion_diff` computed during
`imitate` is the one-sided log-map difference
`log(error(q[1], q[0]))/dt` at index 0, the central difference
`log(error(q[n+1], q[n-1]))/(2·dt)` at every interior index, and the
one-sided `log(error(q[N-1], q[N-2]))/dt` at the last index. -/
theorem quaternion_diff_formulas (dt : ℝ) (q : List Quat) (hq : 2 ≤ q.length) :
    ((quaternion_diff dt q).getD 0 v3zero =
      (logarithmic_map (quaternion_error (q.getD 1 quatZero) (q.getD 0 quatZero))).divR dt) ∧
    (∀ n, 0 < n → n < q.length - 1 →
      (quaternion_diff dt q).getD n v3zero =
        (logarithmic_map
          (quaternion_error (q.getD (n + 1) quatZero) (q.getD (n - 1) quatZero))).divR
          (2 * dt)) ∧
    ((quaternion_diff dt q).getD (q.length - 1) v3zero =
      (logarithmic_map
        (quaternion_error (q.getD (q.length - 1) quatZero)
          (q.getD (q.length - 2) quatZero))).divR dt) := by
  unfold quaternion_diff
  refine ⟨?_, ?_, ?_⟩
  · rw [getD_range_map _ _ _ _ (by omega)]
    rw [if_pos rfl]
  · intro n hn0 hn1
    rw [getD_range_map _ _ _ _ (by omega)]
    rw [if_neg (by omega), if_neg (by omega)]
  · rw [getD_range_map _ _ _ _ (by omega)]
    rw [if_neg (by omega), if_pos rfl]
    have h21 : q.length - 1 - 1 = q.length - 2 := by omega
    rw [h21]

theorem quaternion_diff_formulas_witness :
    2 ≤ qlist3.length ∧
    (quaternion_diff 1 qlist3).getD 1 v3zero =
      (logarithmic_map
        (quaternion_error (qlist3.getD 2 quatZero) (qlist3.getD 0 quatZero))).divR (2 * 1) := by
  have hq : 2 ≤ qlist3.length := by
    unfold qlist3
    decide
  have hlen : qlist3.length - 1 = 2 := by
    unfold qlist3
    decide
  exact ⟨hq, (quaternion_diff_formulas 1 qlist3 hq).2.1 1 (by omega) (by omega)⟩

/-- C3: on a trained state, the sequences returned by `rollout` satisfy, for
every `n` in `1..N-1`, exactly
`ddq[n] = alphaz·(betaz·log(error(qT, q[n-1])) - dq[n-1]) + f[n]`,
`dq[n] = dq[n-1] + tau·ddq[n-1]·dt` (using `ddq[n-1]`, not the fresh
`ddq[n]`), and `q[n] = product(exp(tau·dq[n-1]·dt), q[n-1])` (using
`dq[n-1]`, not `dq[n]`), with index 0 equal to the trained
`q0, dq0, ddq0`. -/
theorem rollout_update_order (s : QuaternionDMP) (tau : ℝ) (q0 qT : Quat) (dq0 ddq0 : V3)
    (w : List ℝ × List ℝ × List ℝ) (ph : List ℝ)
    (h0 : s.q0 = some q0) (h1 : s.dq_log0 = some dq0) (h2 : s.ddq_log0 = some ddq0)
    (h3 : s.weights = some w) (h4 : s.phase = some ph) (h5 : s.qT = some qT)
    (r : QuaternionDMP × List Quat × List V3 × List V3) (hr : s.rollout tau = .ok r)
    (n : ℕ) (hn1 : 1 ≤ n) (hn2 : n < s.N) :
    (r.2.1.getD 0 quatZero = q0 ∧ r.2.2.1.getD 0 v3zero = dq0 ∧
      r.2.2.2.getD 0 v3zero = ddq0) ∧
    r.2.2.2.getD n v3zero =
      s.alphaz • (s.betaz •
        logarithmic_map (quaternion_error qT (r.2.1.getD (n - 1) quatZero)) -
        r.2.2.1.getD (n - 1) v3zero) + s.rolloutForcingVec ph w tau n ∧
    r.2.2.1.getD n v3zero =
      r.2.2.1.getD (n - 1) v3zero + (tau * s.dt) • r.2.2.2.getD (n - 1) v3zero ∧
    r.2.1.getD n quatZero =
      quaternion_product (exponential_map ((tau * s.dt) • r.2.2.1.getD (n - 1) v3zero))
        (r.2.1.getD (n - 1) quatZero) := by
  unfold QuaternionDMP.rollout at hr
  simp only [h0, h1, h2, h3, h4, h5] at hr
  rw [Except.ok.injEq] at hr
  subst hr
  obtain ⟨m, rfl⟩ : ∃ m, n = m + 1 := ⟨n - 1, by omega⟩
  have hm : m < s.N := by omega
  have hm1 : m + 1 < s.N := hn2
  have h0N : 0 < s.N := by omega
  have hmm : m + 1 - 1 = m := by omega
  dsimp only
  rw [hmm, getD_range_map _ _ _ _ h0N, getD_range_map _ _ _ _ h0N,
    getD_range_map _ _ _ _ h0N, getD_range_map _ _ _ _ hm1, getD_range_map _ _ _ _ hm1,
    getD_range_map _ _ _ _ hm1, getD_range_map _ _ _ _ hm, getD_range_map _ _ _ _ hm,
    getD_range_map _ _ _ _ hm]
  exact ⟨⟨rfl, rfl, rfl⟩, rfl, rfl, rfl⟩

theorem rollout_update_order_witness :
    1 < trainedState.N ∧
    (okOr (trainedState.rollout 1) (trainedState, [], [], [])).2.2.1.getD 1 v3zero =
      (okOr (trainedState.rollout 1) (trainedState, [], [], [])).2.2.1.getD 0 v3zero +
        ((1 : ℝ) * trainedState.dt) •
          (okOr (trainedState.rollout 1) (trainedState, [], [], [])).2.2.2.getD 0 v3zero := by
  refine ⟨by decide, ?_⟩
  obtain ⟨r, hr⟩ : ∃ r, trainedState.rollout 1 = .ok r := ⟨_, rfl⟩
  have H := rollout_update_order trainedState 1 ⟨1, 0, 0, 0⟩ ⟨1, 0, 0, 0⟩ ⟨0, 0, 0⟩ ⟨0, 0, 0⟩
    ([0, 0], [0, 0], [0, 0]) [1, Real.exp (-1)] rfl rfl rfl rfl rfl rfl r hr 1
    (by omega) (by decide)
  rw [hr]
  simp only [okOr]
  exact H.2.2.1

theorem trained_artifacts_frame_witness :
    ((QuaternionDMP.init 2 1).c = (QuaternionDMP.init 2 (1 / 2)).c) ∧
    ((okOr ((QuaternionDMP.init 20 (1 / 100)).imitate dummySlerp dummyPinv
        [⟨0, 0, 0, 1⟩, ⟨0, 0, 0, 1⟩]) (QuaternionDMP.init 20 (1 / 100), [])).1.c =
      (QuaternionDMP.init 20 (1 / 100)).c) ∧
    ((okOr (trainedState.rollout 1) (trainedState, [], [], [])).1 = trainedState) := by
  refine ⟨(trained_artifacts_frame.1 2 1 (1 / 2)).1, ?_, ?_⟩
  · obtain ⟨r, hr⟩ : ∃ r, (QuaternionDMP.init 20 (1 / 100)).imitate dummySlerp dummyPinv
        [⟨0, 0, 0, 1⟩, ⟨0, 0, 0, 1⟩] = .ok r := ⟨_, rfl⟩
    rw [hr]
    simp only [okOr]
    exact (trained_artifacts_frame.2.1 _ _ _ _ r hr).1
  · obtain ⟨r, hr⟩ : ∃ r, trainedState.rollout 1 = .ok r := ⟨_, rfl⟩
    rw [hr]
    simp only [okOr]
    exact trained_artifacts_frame.2.2 _ _ r hr

/-- C8 (counterexample to the claim as stated): the tangent vector
`r = (2⁻⁶⁰, 0, 0)` has `‖r‖ < π`, yet `logarithmic_map (exponential_map r)`
is the zero vector, not `r`: the vector part of `exponential_map r` has norm
`sin(2⁻⁶¹) < 2⁻⁵² = np.finfo(float).eps`, so the logarithmic map's
identity-singularity guard fires. -/
theorem log_exp_roundtrip_fails_below_eps :
    normV ⟨1 / 2 ^ 60, 0, 0⟩ < Real.pi ∧
    logarithmic_map (exponential_map ⟨1 / 2 ^ 60, 0, 0⟩) ≠ ⟨1 / 2 ^ 60, 0, 0⟩ := by
  have hx : (0 : ℝ) < 1 / 2 ^ 60 := by norm_num
  have hnv : normV ⟨1 / 2 ^ 60, 0, 0⟩ = 1 / 2 ^ 60 := by
    unfold normV
    dsimp only
    rw [show ((1 : ℝ) / 2 ^ 60) ^ 2 + 0 ^ 2 + 0 ^ 2 = ((1 : ℝ) / 2 ^ 60) ^ 2 by ring]
    exact Real.sqrt_sq hx.le
  have hπ3 := Real.pi_gt_three
  refine ⟨by rw [hnv]; nlinarith, ?_⟩
  have hq : exponential_map ⟨1 / 2 ^ 60, 0, 0⟩ =
      ⟨Real.cos (1 / 2 ^ 61), Real.sin (1 / 2 ^ 61), 0, 0⟩ := by
    unfold exponential_map
    rw [if_neg (by rw [hnv]; norm_num), hnv]
    refine Quat.ext ?_ ?_ ?_ ?_ <;> dsimp only
    · rw [show (1 : ℝ) / 2 ^ 60 / 2 = 1 / 2 ^ 61 by norm_num]
    · rw [show (1 : ℝ) / 2 ^ 60 / 2 = 1 / 2 ^ 61 by norm_num]
      rw [div_self (ne_of_gt hx), mul_one]
    · rw [zero_div, mul_zero]
    · rw [zero_div, mul_zero]
  rw [hq]
  have hs61 : (0 : ℝ) < 1 / 2 ^ 61 := by norm_num
  have hsin_nn : 0 ≤ Real.sin (1 / 2 ^ 61) :=
    Real.sin_nonneg_of_nonneg_of_le_pi hs61.le (by nlinarith)
  have hsin_small : Real.sin (1 / 2 ^ 61) < floatEps := by
    have h1 := Real.sin_lt hs61
    have h2 : (1 : ℝ) / 2 ^ 61 < floatEps := by
      unfold floatEps
      norm_num
    linarith
  have hlog : logarithmic_map ⟨Real.cos (1 / 2 ^ 61), Real.sin (1 / 2 ^ 61), 0, 0⟩ =
      ⟨0, 0, 0⟩ := by
    unfold logarithmic_map
    rw [if_pos]
    rw [show (Real.sin (1 / 2 ^ 61)) ^ 2 + (0 : ℝ) ^ 2 + (0 : ℝ) ^ 2 =
      (Real.sin (1 / 2 ^ 61)) ^ 2 by ring]
    rw [Real.sqrt_sq hsin_nn]
    exact hsin_small
  rw [hlog]
  intro hcontra
  have hc := congrArg V3.x hcontra
  norm_num at hc

/-- C8 (amended): for every tangent vector `r` with `‖r‖ < π`,
`logarithmic_map (exponential_map r) = r` holds exactly, provided the
logarithmic map's identity-singularity guard does not fire, i.e. `r = 0`
(where both maps hit their exact zero branches) or
`sin(‖r‖/2) ≥ np.finfo(float).eps`; for `0 < sin(‖r‖/2) < eps` the guard
returns the zero vector instead (see the counterexample). -/
theorem log_exp_roundtrip (r : V3) (hpi : normV r < Real.pi)
    (hg : r = ⟨0, 0, 0⟩ ∨ floatEps ≤ Real.sin (normV r / 2)) :
    logarithmic_map (exponential_map r) = r := by
  have hEps : (0 : ℝ) < floatEps := by
    unfold floatEps
    norm_num
  rcases hg with rfl | hs
  · have hz : normV ⟨0, 0, 0⟩ = 0 := by
      unfold normV
      dsimp only
      rw [show (0 : ℝ) ^ 2 + 0 ^ 2 + 0 ^ 2 = 0 by ring, Real.sqrt_zero]
    unfold exponential_map
    rw [if_pos hz]
    unfold logarithmic_map
    rw [if_pos]
    rw [show (0 : ℝ) ^ 2 + 0 ^ 2 + 0 ^ 2 = 0 by ring, Real.sqrt_zero]
    exact hEps
  · have hθnn : 0 ≤ normV r := Real.sqrt_nonneg _
    have hθpos : 0 < normV r := by
      rcases eq_or_lt_of_le hθnn with h | h
      · exfalso
        rw [← h] at hs
        rw [show (0 : ℝ) / 2 = 0 by ring, Real.sin_zero] at hs
        linarith
      · exact h
    have hθne : normV r ≠ 0 := ne_of_gt hθpos
    have hsinpos : 0 < Real.sin (normV r / 2) := by linarith
    have hsinne : Real.sin (normV r / 2) ≠ 0 := ne_of_gt hsinpos
    have hcospos : 0 < Real.cos (normV r / 2) :=
      Real.cos_pos_of_mem_Ioo ⟨by linarith [Real.pi_pos], by linarith⟩
    have hsq : (normV r) ^ 2 = r.x ^ 2 + r.y ^ 2 + r.z ^ 2 :=
      Real.sq_sqrt (by positivity)
    unfold exponential_map
    rw [if_neg hθne]
    unfold logarithmic_map
    have hvn : Real.sqrt ((Real.sin (normV r / 2) * (r.x / normV r)) ^ 2 +
        (Real.sin (normV r / 2) * (r.y / normV r)) ^ 2 +
        (Real.sin (normV r / 2) * (r.z / normV r)) ^ 2) = Real.sin (normV r / 2) := by
      rw [show (Real.sin (normV r / 2) * (r.x / normV r)) ^ 2 +
          (Real.sin (normV r / 2) * (r.y / normV r)) ^ 2 +
          (Real.sin (normV r / 2) * (r.z / normV r)) ^ 2 =
          (Real.sin (normV r / 2)) ^ 2 * ((r.x ^ 2 + r.y ^ 2 + r.z ^ 2) / (normV r) ^ 2) by
        field_simp
        ring]
      rw [← hsq, div_self (by positivity), mul_one, Real.sqrt_sq hsinpos.le]
    dsimp only
    rw [hvn, if_neg (not_lt.mpr hs)]
    have harct : arctan2 (Real.sin (normV r / 2)) (Real.cos (normV r / 2)) = normV r / 2 := by
      unfold arctan2
      rw [if_pos hcospos, ← Real.tan_eq_sin_div_cos]
      exact Real.arctan_tan (by linarith [Real.pi_pos]) (by linarith)
    rw [harct]
    refine V3.ext ?_ ?_ ?_ <;> dsimp only [v3_smul_def] <;> field_simp <;> ring

theorem log_exp_roundtrip_witness :
    normV ⟨0, 0, 0⟩ < Real.pi ∧ logarithmic_map (exponential_map ⟨0, 0, 0⟩) = ⟨0, 0, 0⟩ := by
  have h1 : normV ⟨0, 0, 0⟩ < Real.pi := by
    unfold normV
    dsimp only
    rw [show (0 : ℝ) ^ 2 + 0 ^ 2 + 0 ^ 2 = 0 by ring, Real.sqrt_zero]
    linarith [Real.pi_pos]
  exact ⟨h1, log_exp_roundtrip _ h1 (Or.inl rfl)⟩

theorem init2_N : (QuaternionDMP.init 2 (1 / 2)).N = 2 := by
  unfold QuaternionDMP.init
  dsimp only
  rw [show (1 : ℝ) / (1 / 2) = 2 by norm_num]
  rw [show ⌊(2 : ℝ)⌋ = 2 from by exact_mod_cast Int.floor_intCast 2]
  rfl

theorem linspace2 : linspace 0 1 2 = [0, 1] := by
  unfold linspace
  rw [if_neg (by norm_num)]
  rw [show List.range 2 = [0, 1] from rfl]
  simp only [List.map_cons, List.map_nil]
  norm_num

theorem init2_c : (QuaternionDMP.init 2 (1 / 2)).c = [1, Real.exp (-1)] := by
  unfold QuaternionDMP.init
  dsimp only
  rw [linspace2]
  simp only [List.map_cons, List.map_nil, List.cons.injEq, and_true]
  norm_num [Real.exp_zero]

theorem init2_h :
    (QuaternionDMP.init 2 (1 / 2)).h =
      [(2 : ℝ) ^ (1.5 : ℝ), (2 : ℝ) ^ (1.5 : ℝ) * Real.exp 1] := by
  unfold QuaternionDMP.init
  dsimp only
  rw [linspace2]
  simp only [List.map_cons, List.map_nil, List.cons.injEq, and_true]
  norm_num [Real.exp_zero]
  rw [Real.exp_neg, div_eq_mul_inv, inv_inv]

theorem init2_trainingPhase :
    (QuaternionDMP.init 2 (1 / 2)).trainingPhase = [1, Real.exp (-1)] := by
  unfold QuaternionDMP.trainingPhase
  rw [init2_N, show (QuaternionDMP.init 2 (1 / 2)).T = 1 from rfl,
    show (QuaternionDMP.init 2 (1 / 2)).alphax = 1 from rfl, linspace2]
  simp only [List.map_cons, List.map_nil, List.cons.injEq, and_true]
  norm_num [Real.exp_zero]

theorem init2_rolloutPhase2 :
    (QuaternionDMP.init 2 (1 / 2)).rolloutPhase 2 = [1, Real.exp (-2)] := by
  unfold QuaternionDMP.rolloutPhase
  rw [init2_N, show (QuaternionDMP.init 2 (1 / 2)).T = 1 from rfl,
    show (QuaternionDMP.init 2 (1 / 2)).alphax = 1 from rfl, linspace2]
  simp only [List.map_cons, List.map_nil, List.cons.injEq, and_true]
  norm_num [Real.exp_zero]

/-- C2: the forcing term `rollout` uses is *not* the spec's
`(Σ_i BF[n,i]·w[i])·phase[n]/Σ_i BF[n,i]` with `BF` evaluated at the rescaled
schedule: `forcing_function_approx` multiplies by the rescaled `phase[n]` but
builds `BF` from the stored training schedule `self.phase` (`RBF()` takes no
argument).  Concretely, for the model constructed with `N_bf = 2, dt = 1/2`
(so `N = 2`, training phase `[1, e⁻¹]`), weight column `[1, 0]` and `τ = 2`
(rescaled phase `[1, e⁻²]`), the forcing column of `rollout` differs from the
spec's formula. -/
theorem rollout_forcing_basis_at_training_phase :
    (QuaternionDMP.init 2 (1 / 2)).rolloutForcingCol
        ((QuaternionDMP.init 2 (1 / 2)).trainingPhase) [1, 0] 2 ≠
      forcing_function_spec (QuaternionDMP.init 2 (1 / 2)).h
        (QuaternionDMP.init 2 (1 / 2)).c [1, 0]
        ((QuaternionDMP.init 2 (1 / 2)).rolloutPhase 2) := by
  unfold QuaternionDMP.rolloutForcingCol
  rw [init2_h, init2_c, init2_trainingPhase, init2_rolloutPhase2]
  unfold forcing_function_approx forcing_function_spec RBF_mat RBF_row dotL
  simp only [List.map_cons, List.map_nil, List.zipWith_cons_cons, List.zipWith_nil,
    List.zipWith_nil_left, List.zipWith_nil_right, List.sum_cons, List.sum_nil,
    mul_one, mul_zero, add_zero, zero_add, sub_self, neg_zero, Real.exp_zero, one_mul,
    show ((0 : ℝ) ^ 2 : ℝ) = 0 from by norm_num]
  intro hcontra
  simp only [List.cons.injEq] at hcontra
  obtain ⟨h0, h1, -⟩ := hcontra
  have hH : (0 : ℝ) < (2 : ℝ) ^ (1.5 : ℝ) := Real.rpow_pos_of_pos (by norm_num) _
  set H := (2 : ℝ) ^ (1.5 : ℝ) with hHdef
  set a := Real.exp (-1) with hadef
  set b := Real.exp (-2) with hbdef
  set e1 := Real.exp 1 with he1def
  set A := Real.exp (-(H * (a - 1) ^ 2)) with hAdef
  set B := Real.exp (-(H * (b - 1) ^ 2)) with hBdef
  set C := Real.exp (-(H * e1 * (b - a) ^ 2)) with hCdef
  have hA : 0 < A := Real.exp_pos _
  have hB : 0 < B := Real.exp_pos _
  have hC : 0 < C := Real.exp_pos _
  have hbpos : 0 < b := Real.exp_pos _
  have hapos : 0 < a := Real.exp_pos _
  have hd1 : (A + 1) ≠ 0 := by positivity
  have hd2 : (B + C) ≠ 0 := by positivity
  rw [div_eq_div_iff hd1 hd2] at h1
  have h3 : A * (B + C) = B * (A + 1) := by
    apply mul_right_cancel₀ (ne_of_gt hbpos)
    linear_combination h1
  have h4 : A * C = B := by linear_combination h3
  rw [hAdef, hBdef, hCdef, ← Real.exp_add] at h4
  have h5 := Real.exp_injective h4
  have hea : e1 * a = 1 := by
    rw [he1def, hadef, ← Real.exp_add]
    norm_num
  have hba : b = a * a := by
    rw [hbdef, hadef, ← Real.exp_add]
    norm_num
  have ha1 : a ≠ 1 := by
    rw [hadef]
    intro hh
    have h6 := Real.exp_injective (hh.trans Real.exp_zero.symm)
    norm_num at h6
  rw [hba] at h5
  have hfinal : H * (a - 1) ^ 2 * (a + 1) * a = 0 := by
    linear_combination h5 + H * (a - 1) ^ 2 * a * hea
  have hsq : (0 : ℝ) < (a - 1) ^ 2 :=
    lt_of_le_of_ne (sq_nonneg _) (Ne.symm (pow_ne_zero 2 (sub_ne_zero.mpr ha1)))
  have hpos : 0 < H * (a - 1) ^ 2 * (a + 1) * a :=
    mul_pos (mul_pos (mul_pos hH hsq) (by linarith)) hapos
  exact (ne_of_gt hpos) hfinal
